import Mathlib

/-!
Verification development for the AutoTS production example
(`production_example.py`) and the evolutionary automated-forecasting
orchestrator it drives.

The script's own data-preparation code (time filtering, the minimum-recency
column filter, row trimming, archive filename construction) is embedded
directly from the source.  The orchestrator components the script calls
(Population Manager, Validation Engine, Ensembler, Template Store, Forecast
Executor) live in the AutoTS library, whose code is not part of this
repository snapshot; those components are modelled from the specification,
each marked `Modelled from the spec:` in its doc comment.

Numeric cell values are rationals; a missing cell (pandas `NaN`) is `none`.
Timestamps are integers (day numbers).
-/

namespace AutoTSSpec

/-! ## Wide data frame embedding (pandas, as used in the script)

A wide table: `index` is the list of timestamps (rows, in order), and each
column is a name paired with the list of its cells, one per row.  A missing
cell is `none`. -/

structure DF where
  index : List Int
  cols : List (String × List (Option ℚ))
deriving Repr

/-- Keep the elements of `xs` at the positions where `mask` is `true`
(row selection by boolean mask, as pandas `df[mask]` does per column). -/
def applyMask {α : Type} (mask : List Bool) (xs : List α) : List α :=
  (mask.zip xs).filterMap (fun bx => if bx.1 then some bx.2 else none)

/-- Row selection `df[pred(df.index)]`: keep the rows whose timestamp satisfies `p`
(source lines 88 and 91 filter by year and by `index <= start_time`). -/
def filterRows (p : Int → Bool) (df : DF) : DF :=
  let mask := df.index.map p
  ⟨applyMask mask df.index, df.cols.map (fun nc => (nc.1, applyMask mask nc.2))⟩

/-- pandas `Series.idxmax` on a boolean series given as (label, value) pairs:
the label of the first occurrence of the maximum value.  If any value is
`true` the maximum is `true` and the first `true` wins; if all are `false`
the first label is returned.  `none` only for the empty series (pandas
raises there). -/
def idxmaxBool (ps : List (Int × Bool)) : Option Int :=
  match ps.find? (fun p => p.2) with
  | some p => some p.1
  | none => ps.head?.map (fun p => p.1)

/-- Source line 94, per column: `df.notna()[::-1].idxmax()` — the boolean
not-missing mask, reversed (so the most recent row comes first), then
`idxmax`.  Returns the timestamp of the most recent non-missing value, or,
when the column is entirely missing, the most recent timestamp of the
table. -/
def mostRecentDate (index : List Int) (c : List (Option ℚ)) : Option Int :=
  idxmaxBool (index.reverse.zip ((c.map (fun x => x.isSome)).reverse))

/-- Source line 95: the names of the columns whose most recent observed
date is strictly before the cutoff
(`most_recent_date[most_recent_date < min_cutoff_date].index.tolist()`). -/
def dropColsFor (cutoff : Int) (df : DF) : List String :=
  df.cols.filterMap (fun nc =>
    match mostRecentDate df.index nc.2 with
    | some d => if d < cutoff then some nc.1 else none
    | none => none)

/-- pandas `df.drop(columns=names)`. -/
def dropColumns (names : List String) (df : DF) : DF :=
  ⟨df.index, df.cols.filter (fun nc => !names.contains nc.1)⟩

/-- Source lines 93-96: drop every series with no data on or after
`cutoff = start_time - 180 days`. -/
def recencyFilter (cutoff : Int) (df : DF) : DF :=
  dropColumns (dropColsFor cutoff df) df

/-- Source line 114: `df.iloc[forecast_length:]` — drop the first `k` rows. -/
def ilocFrom (k : Nat) (df : DF) : DF :=
  ⟨df.index.drop k, df.cols.map (fun nc => (nc.1, nc.2.drop k))⟩

/-- The column names of a frame, in order. -/
def colNames (df : DF) : List String :=
  df.cols.map (fun nc => nc.1)

/-! ## Templates and scores

Modelled from the spec: the AutoTS library's data model is not in this
repository snapshot.  A Template is a (model family, hyperparameters,
preprocessing transformer chain) triple with a stable content-derived id;
a CompositeScore is a scalar cost, lower is better, with `⊤` standing for
a candidate that failed to fit or validate (infinite cost). -/

structure Template where
  id : Nat
  family : String
  modelParams : List (String × String)
  transformerParams : List (String × String)
deriving DecidableEq, Repr

/-- A composite score: a rational cost, or `⊤` for a failed candidate. -/
abbrev Score := WithTop ℚ

/-- Modelled from the spec: ranking order used by Select — by CompositeScore
ascending (lower is better), ties broken by template id (deterministic,
reproducible). -/
def scoreRel (a b : Template × Score) : Prop :=
  a.2 < b.2 ∨ (a.2 = b.2 ∧ a.1.id ≤ b.1.id)

instance : DecidableRel scoreRel := by
  intro a b
  unfold scoreRel
  infer_instance

instance : IsTotal (Template × Score) scoreRel := by
  constructor
  intro a b
  rcases lt_trichotomy a.2 b.2 with h | h | h
  · exact Or.inl (Or.inl h)
  · rcases Nat.le_total a.1.id b.1.id with h2 | h2
    · exact Or.inl (Or.inr ⟨h, h2⟩)
    · exact Or.inr (Or.inr ⟨h.symm, h2⟩)
  · exact Or.inr (Or.inl h)

instance : IsTrans (Template × Score) scoreRel := by
  constructor
  intro a b c hab hbc
  rcases hab with hab | ⟨hab, hab2⟩
  · rcases hbc with hbc | ⟨hbc, _⟩
    · exact Or.inl (hab.trans hbc)
    · exact Or.inl (hbc ▸ hab)
  · rcases hbc with hbc | ⟨hbc, hbc2⟩
    · exact Or.inl (hab ▸ hbc)
    · exact Or.inr ⟨hab.trans hbc, hab2.trans hbc2⟩

/-! ## Population Manager: selection

Modelled from the spec: `Select(n_export, max_per_model_class)` returns the
best `n_export` templates by CompositeScore, capping how many may share the
same `model_family`. -/

/-- Look up a count in a family-count ledger. -/
def famCount (fam : String) : List (String × Nat) → Nat
  | [] => 0
  | fc :: rest => if fc.1 = fam then fc.2 else famCount fam rest

/-- Whether the per-family cap still allows taking a template whose family
already has `cnt` taken members (`none` = no cap). -/
def capAllows (cap : Option Nat) (cnt : Nat) : Bool :=
  match cap with
  | none => true
  | some c => decide (cnt < c)

/-- Greedy capped take over a score-sorted list: take up to `n` templates,
skipping a template once the cap for its model family is reached. -/
def capTake (cap : Option Nat) : List (String × Nat) → Nat →
    List (Template × Score) → List Template
  | _, _, [] => []
  | _, 0, _ :: _ => []
  | counts, n + 1, p :: rest =>
    let cnt := famCount p.1.family counts
    if capAllows cap cnt then
      p.1 :: capTake cap ((p.1.family, cnt + 1) :: counts) n rest
    else
      capTake cap counts (n + 1) rest

/-- Modelled from the spec: Select — rank all scored candidates by
CompositeScore (ties by id) and take the best `n`, at most `cap` per model
family. -/
def selectBest (scored : List (Template × Score)) (n : Nat) (cap : Option Nat) :
    List Template :=
  capTake cap [] n (List.insertionSort scoreRel scored)

/-! ## Population Manager: generational search

Modelled from the spec: the evolutionary loop.  `eval` is the Validation
Engine's aggregate CompositeScore for one template (deterministic under the
fixed random seed; `⊤` when the candidate fails to fit or validate);
`mutate` produces the next generation's candidates from the survivors (the
seeded mutation/crossover/fresh-random scheme, a deterministic function of
the survivors and the generation index).  Generations are append-only
history: a failed or dropped candidate is excluded from survival but never
removed from history. -/

structure SearchConfig where
  eval : Template → Score
  mutate : List Template → Nat → List Template
  surviveCount : Nat

/-- Score every candidate of a generation. -/
def scoreAll (eval : Template → Score) (ts : List Template) :
    List (Template × Score) :=
  ts.map (fun t => (t, eval t))

/-- The scored results that validated (finite cost): failures are excluded
from survival. -/
def validOf (hist : List (Template × Score)) : List (Template × Score) :=
  hist.filter (fun p => p.2 ≠ ⊤)

/-- Run `g` further generations, accumulating the append-only history. -/
def evolveAux (cfg : SearchConfig) : Nat → List (Template × Score) → Nat →
    List (Template × Score)
  | 0, hist, _ => hist
  | g + 1, hist, genIdx =>
    let surv := selectBest (validOf hist) cfg.surviveCount none
    let next := cfg.mutate surv genIdx
    evolveAux cfg g (hist ++ scoreAll cfg.eval next) (genIdx + 1)

/-- Modelled from the spec: the whole search — score the seeded population
once, then run `maxGens` generations of evolution (`maxGens = 0` disables
evolution and simply scores the seeded population once).  Returns the full
scored history. -/
def runSearch (cfg : SearchConfig) (seedPop : List Template) (maxGens : Nat) :
    List (Template × Score) :=
  evolveAux cfg maxGens (scoreAll cfg.eval seedPop) 1

/-- The CompositeScore of the best template in a scored history (`⊤` when
the history is empty or nothing validated). -/
def bestScore (hist : List (Template × Score)) : Score :=
  hist.foldr (fun p acc => min p.2 acc) ⊤

/-! ## Template Store

Modelled from the spec: the archive file layout is tabular, one row per
exported template, columns `{ID, ModelFamily, ModelParameters,
TransformerParameters, Ensemble}`; the parameter columns hold serialized
structured text, modelled here by the structured values themselves (the
serialization is invertible).  The persistence medium only needs
get/put-by-name semantics, modelled as an association list from path to
content; unparsable content is `corrupt`. -/

structure ArchiveRow where
  rowId : Nat
  modelFamily : String
  modelParameters : List (String × String)
  transformerParameters : List (String × String)
  ensembleFlag : Nat
deriving DecidableEq, Repr

/-- Serialize one template to an archive row. -/
def toRow (t : Template) (ens : Nat) : ArchiveRow :=
  ⟨t.id, t.family, t.modelParams, t.transformerParams, ens⟩

/-- Parse one archive row back into a template. -/
def fromRow (r : ArchiveRow) : Template :=
  ⟨r.rowId, r.modelFamily, r.modelParameters, r.transformerParameters⟩

/-- Content found at an archive path: a parsable row table, or garbage. -/
inductive FileContent where
  | rows (rs : List ArchiveRow)
  | corrupt
deriving DecidableEq, Repr

/-- The store: path → content. -/
abbrev FS := List (String × FileContent)

def fsGet (fs : FS) (path : String) : Option FileContent :=
  match fs.find? (fun e => e.1 = path) with
  | some e => some e.2
  | none => none

def fsPut (fs : FS) (path : String) (v : FileContent) : FS :=
  (path, v) :: fs.filter (fun e => e.1 ≠ path)

/-- Modelled from the spec: `Export(path, ...)` serializes an already
selected list of templates, one row per template, replacing the file at
`path` atomically. -/
def exportTemplate (fs : FS) (path : String) (sel : List Template) : FS :=
  fsPut fs path (.rows (sel.map (fun t => toRow t 0)))

/-- Merge policy of `import_template`: `addon` unions, `only` replaces. -/
inductive ImportMethod where
  | addon
  | only
deriving DecidableEq, Repr

/-- Errors surfaced to the caller. -/
inductive RunError where
  | archiveCorrupt
  | ensembleInfeasible
deriving DecidableEq, Repr

/-- Modelled from the spec: the model's pre-fit state.  `seedPopulation` is
the freshly sampled random initial template set the model starts from
(`initial_template='random'`); `population` is the live population;
`evolveDisabled` records that an `only` import switched the run to fixed
template mode (generational mutation disabled). -/
structure ModelState where
  population : List Template
  seedPopulation : List Template
  evolveDisabled : Bool
deriving DecidableEq, Repr

/-- Keep only the first template of each id (deduplication by template id). -/
def dedupByIdAux (seen : List Nat) : List Template → List Template
  | [] => []
  | t :: rest =>
    if t.id ∈ seen then dedupByIdAux seen rest
    else t :: dedupByIdAux (t.id :: seen) rest

def dedupById (ts : List Template) : List Template :=
  dedupByIdAux [] ts

/-- Modelled from the spec: `Import(path, method)`.  A missing file is
treated as "no prior archive" and triggers full cold-start seeding (the
fully random initial template set), not an error; content that exists but
is unparsable is fatal (`ArchiveCorruptError`); otherwise `only` replaces
the live population and disables generational mutation, `addon` unions the
archive into the live population, deduplicated by template id. -/
def importTemplate (fs : FS) (path : String) (method : ImportMethod)
    (st : ModelState) : Except RunError ModelState :=
  match fsGet fs path with
  | none => .ok { st with population := st.seedPopulation }
  | some .corrupt => .error .archiveCorrupt
  | some (.rows rs) =>
    match method with
    | .only => .ok { st with population := rs.map fromRow, evolveDisabled := true }
    | .addon => .ok { st with population := dedupById (st.population ++ rs.map fromRow) }

/-! ## Forecast Executor

Modelled from the spec: the Executor produces point, lower and upper wide
tables over the retained series and the future horizon.  A member model's
raw output may have inverted or non-finite bounds (`none` models a
non-finite bound); the Executor clips/repairs each cell before returning so
that `lower ≤ point ≤ upper` holds elementwise. -/

/-- One raw forecast cell from a member model: a point value and possibly
non-finite (`none`) lower/upper bounds. -/
structure RawCell where
  point : ℚ
  lower : Option ℚ
  upper : Option ℚ
deriving DecidableEq, Repr

/-- One repaired output cell: the aligned (lower, point, upper) triple for
one (series, future timestamp) position of the three output tables. -/
structure FCell where
  lower : ℚ
  point : ℚ
  upper : ℚ
deriving DecidableEq, Repr

/-- Modelled from the spec: clip/repair one cell — a non-finite bound is
replaced by the point, and an inverted bound is clipped to the point. -/
def repairCell (rc : RawCell) : FCell :=
  let lo := match rc.lower with
    | some l => min l rc.point
    | none => rc.point
  let hi := match rc.upper with
    | some u => max u rc.point
    | none => rc.point
  ⟨lo, rc.point, hi⟩

/-- The Forecast: future timestamps and, per retained series, the list of
repaired cells.  The point, lower and upper wide tables are the three
projections of `cols`, so they share index and columns by construction. -/
structure Forecast where
  index : List Int
  cols : List (String × List FCell)
deriving DecidableEq, Repr

/-- Modelled from the spec: fit-and-predict of the final ensemble.
`member` is the fitted ensemble's raw per-cell output (series name ×
horizon step); every cell is repaired before returning.  The output
columns are exactly the retained series names and the rows are the future
timestamps. -/
def predict (member : String → Nat → RawCell) (names : List String)
    (futIdx : List Int) : Forecast :=
  ⟨futIdx,
   names.map (fun n =>
     (n, (List.range futIdx.length).map (fun i => repairCell (member n i))))⟩

/-! ## Whole run: search, infeasibility check, forecast

Modelled from the spec: a run searches, keeps the validated results, and
either fails with `EnsembleInfeasibleError` when no template validated
(total search failure — the Executor must not fabricate output) or builds
the final ensemble from the selected survivors and predicts.  `member`
turns the selected templates into the fitted ensemble's raw output. -/

def runForecast (cfg : SearchConfig) (pop : List Template) (gens n : Nat)
    (cap : Option Nat) (member : List Template → String → Nat → RawCell)
    (names : List String) (futIdx : List Int) : Except RunError Forecast :=
  if (validOf (runSearch cfg pop gens)).isEmpty then .error .ensembleInfeasible
  else
    .ok (predict
      (member (selectBest (validOf (runSearch cfg pop gens)) n cap))
      names futIdx)

/-! ## Interrupted generation

Modelled from the spec: when the external interrupt signal is set
mid-generation with `m` of the candidates already scored, the in-flight
evaluations are abandoned and treated as failed (infinite cost), and the
Population Manager proceeds to selection with whatever results exist. -/

/-- Score a generation interrupted after the first `m` candidates: the
completed ones carry their real score, the abandoned ones are recorded as
failed (`⊤`). -/
def scoreGenInterrupted (eval : Template → Score) (cands : List Template)
    (m : Nat) : List (Template × Score) :=
  (cands.take m).map (fun t => (t, eval t)) ++
    (cands.drop m).map (fun t => (t, (⊤ : Score)))

/-- Modelled from the spec: a run whose single generation is interrupted
after `m` completed evaluations still selects survivors from the completed
results and produces a forecast; an interrupt is not an error outcome. -/
def runInterrupted (cfg : SearchConfig) (cands : List Template) (m n : Nat)
    (cap : Option Nat) (member : List Template → String → Nat → RawCell)
    (names : List String) (futIdx : List Int) : Except RunError Forecast :=
  if (validOf (scoreGenInterrupted cfg.eval cands m)).isEmpty then
    .error .ensembleInfeasible
  else
    .ok (predict
      (member (selectBest (validOf (scoreGenInterrupted cfg.eval cands m)) n cap))
      names futIdx)

/-! ## Archive filename and result processing (source lines 189-195) -/

/-- Whether `pat` begins the list. -/
def beginsWith : List Char → List Char → Bool
  | [], _ => true
  | _ :: _, [] => false
  | a :: as, b :: bs => a = b && beginsWith as bs

/-- The characters of `l` before the first occurrence of `pat`
(all of `l` when `pat` does not occur): Python `l.split(pat)[0]`. -/
def takeUntilSub (pat : List Char) : List Char → List Char
  | [] => []
  | c :: rest =>
    if beginsWith pat (c :: rest) then []
    else c :: takeUntilSub pat rest

/-- Source line 37: the main template filename for a forecast name. -/
def templateFilename (forecastName : String) : String :=
  "autots_forecast_template_" ++ forecastName ++ ".csv"

/-- Source line 194: the timestamped archive filename,
`template_filename.split('.csv')[0] + "_" + timestamp + ".csv"`. -/
def arcFileOf (tmplFile ts : String) : String :=
  String.mk (takeUntilSub ".csv".data tmplFile.data) ++ "_" ++ ts ++ ".csv"

/-- Source lines 189-195: export the best `n` templates (family-capped) to
the main template file, then — when template archiving is on — side-export
the top-1 template to the timestamp-suffixed archive file.  `sideOk = false`
models a failure of the side-export: the side write does not happen, and
the main export, already written, is untouched. -/
def processResults (fs : FS) (tmplFile ts : String)
    (best : List (Template × Score)) (nExport : Nat) (cap : Option Nat)
    (sideOk : Bool) : FS :=
  let fs1 := exportTemplate fs tmplFile (selectBest best nExport cap)
  if sideOk then exportTemplate fs1 (arcFileOf tmplFile ts) (selectBest best 1 none)
  else fs1

/-! ## Modeling stage output -/

/-- The future timestamps: `h` periods following `last`. -/
def futureIndex (last : Int) (h : Nat) : List Int :=
  (List.range h).map (fun i : Nat => last + 1 + (i : Int))

/-- The forecast the script obtains from a frame that has reached the
recency-filter stage: apply the recency filter (source lines 93-96), trim
the first `fl` rows (source line 114), then fit and predict over the
retained series for the next `fl` periods. -/
def modelingOutput (df : DF) (cutoff : Int) (fl : Nat) (start : Int)
    (member : String → Nat → RawCell) : Forecast :=
  predict member (colNames (ilocFrom fl (recencyFilter cutoff df)))
    (futureIndex start fl)

/-! ## Concrete sample data shared by the closed evaluations below -/

/-- A sample template. -/
def sampleTemplate (i : Nat) : Template :=
  ⟨i, "arima", [("p", "1")], [("fillna", "ffill")]⟩

/-- A sample search configuration: deterministic evaluation by id, no
mutation output. -/
def sampleCfg : SearchConfig :=
  ⟨fun t => ((t.id : ℚ) : WithTop ℚ), fun _ _ => [], 5⟩

/-- A search configuration in which every candidate fails to validate. -/
def failCfg : SearchConfig :=
  ⟨fun _ => (⊤ : WithTop ℚ), fun _ _ => [], 5⟩

/-- A sample member-model output cell with inverted bounds. -/
def sampleRaw : RawCell := ⟨1, some 2, some 0⟩

/-- A sample fitted-ensemble output. -/
def sampleMember (_ : List Template) (_ : String) (_ : Nat) : RawCell :=
  sampleRaw

/-- The scenario frame for the recency filter: two daily series of 1000
points (days 0-999); `endsOld` has its last observation on day 799 (200
days before day 999), `fresh` is observed through day 999. -/
def seriesOld : List (Option ℚ) :=
  (List.range 1000).map (fun i => if i ≤ 799 then (some 1 : Option ℚ) else none)

def seriesFresh : List (Option ℚ) :=
  (List.range 1000).map (fun _ => (some 1 : Option ℚ))

def scenarioDF : DF :=
  ⟨(List.range 1000).map (fun i => (i : Int)),
   [("endsOld", seriesOld), ("fresh", seriesFresh)]⟩

/-! ## Helper lemmas -/

theorem repairCell_le (rc : RawCell) :
    (repairCell rc).lower ≤ (repairCell rc).point ∧
      (repairCell rc).point ≤ (repairCell rc).upper := by
  rcases rc with ⟨p, lo, hi⟩
  cases lo <;> cases hi <;>
    simp [repairCell, min_le_right, le_max_right]

theorem fsGet_fsPut (fs : FS) (p : String) (v : FileContent) :
    fsGet (fsPut fs p v) p = some v := by
  simp [fsGet, fsPut, List.find?]

theorem fsGet_fsPut_ne (fs : FS) (p q : String) (v : FileContent)
    (h : q ≠ p) : fsGet (fsPut fs p v) q = fsGet fs q := by
  simp only [fsGet, fsPut]
  rw [List.find?_cons_of_neg _ (by simpa using fun hpq => h hpq.symm)]
  induction fs with
  | nil => rfl
  | cons e rest ih =>
    by_cases he : e.1 = p
    · rw [List.filter_cons_of_neg (by simpa using he)]
      rw [List.find?_cons_of_neg _
        (by simp only [decide_eq_true_eq]; exact fun hq => h (hq ▸ he))]
      exact ih
    · rw [List.filter_cons_of_pos (by simpa using he)]
      by_cases hq : e.1 = q
      · rw [List.find?_cons_of_pos _ (by simpa using hq),
          List.find?_cons_of_pos _ (by simpa using hq)]
      · rw [List.find?_cons_of_neg _ (by simpa using hq),
          List.find?_cons_of_neg _ (by simpa using hq)]
        exact ih

theorem map_fromRow_toRow (sel : List Template) :
    (sel.map (fun t => toRow t 0)).map fromRow = sel := by
  induction sel with
  | nil => rfl
  | cons t rest ih =>
    simp only [List.map_cons, ih]
    rfl

theorem evolveAux_append (cfg : SearchConfig) (g : Nat) :
    ∀ hist i, ∃ tail, evolveAux cfg g hist i = hist ++ tail := by
  induction g with
  | zero => exact fun hist i => ⟨[], (List.append_nil hist).symm⟩
  | succ g ih =>
    intro hist i
    obtain ⟨tail, ht⟩ := ih
      (hist ++ scoreAll cfg.eval
        (cfg.mutate (selectBest (validOf hist) cfg.surviveCount none) i))
      (i + 1)
    exact ⟨_, by rw [evolveAux, ht, List.append_assoc]⟩

theorem bestScore_append_le (l t : List (Template × Score)) :
    bestScore (l ++ t) ≤ bestScore l := by
  induction l with
  | nil => simp [bestScore]
  | cons a l ih =>
    simpa [bestScore, List.foldr_cons] using min_le_min (le_refl a.2) ih

theorem capTake_subset (cap : Option Nat) :
    ∀ (l : List (Template × Score)) (counts : List (String × Nat)) (n : Nat)
      (t : Template), t ∈ capTake cap counts n l → ∃ p ∈ l, p.1 = t := by
  intro l
  induction l with
  | nil => intro counts n t ht; simp [capTake] at ht
  | cons p rest ih =>
    intro counts n t ht
    cases n with
    | zero => simp [capTake] at ht
    | succ n =>
      rw [capTake] at ht
      by_cases hc : capAllows cap (famCount p.1.family counts) = true
      · rw [if_pos hc] at ht
        rcases List.mem_cons.mp ht with h | h
        · exact ⟨p, List.mem_cons_self p rest, h.symm⟩
        · obtain ⟨q, hq, hqt⟩ := ih _ n t h
          exact ⟨q, List.mem_cons_of_mem p hq, hqt⟩
      · rw [if_neg hc] at ht
        obtain ⟨q, hq, hqt⟩ := ih counts (n + 1) t ht
        exact ⟨q, List.mem_cons_of_mem p hq, hqt⟩

theorem selectBest_subset (scored : List (Template × Score)) (n : Nat)
    (cap : Option Nat) (t : Template) (ht : t ∈ selectBest scored n cap) :
    ∃ p ∈ scored, p.1 = t := by
  obtain ⟨q, hq, hqt⟩ := capTake_subset cap _ _ _ _ ht
  exact ⟨q, (List.perm_insertionSort scoreRel scored).mem_iff.mp hq, hqt⟩

theorem mem_scoreAll (eval : Template → Score) (ts : List Template)
    (p : Template × Score) (hp : p ∈ scoreAll eval ts) :
    p.2 = eval p.1 ∧ p.1 ∈ ts := by
  obtain ⟨t, ht, rfl⟩ := List.mem_map.mp hp
  exact ⟨rfl, ht⟩

theorem mem_evolveAux (cfg : SearchConfig) :
    ∀ (g : Nat) (hist : List (Template × Score)) (i : Nat)
      (p : Template × Score), p ∈ evolveAux cfg g hist i →
      p ∈ hist ∨ p.2 = cfg.eval p.1 := by
  intro g
  induction g with
  | zero => intro hist i p hp; exact Or.inl hp
  | succ g ih =>
    intro hist i p hp
    rw [evolveAux] at hp
    rcases ih _ _ p hp with h | h
    · rcases List.mem_append.mp h with h1 | h1
      · exact Or.inl h1
      · exact Or.inr (mem_scoreAll _ _ _ h1).1
    · exact Or.inr h

theorem mem_runSearch_score (cfg : SearchConfig) (pop : List Template)
    (g : Nat) (p : Template × Score) (hp : p ∈ runSearch cfg pop g) :
    p.2 = cfg.eval p.1 := by
  rcases mem_evolveAux cfg g _ 1 p hp with h | h
  · exact (mem_scoreAll _ _ _ h).1
  · exact h

theorem mostRecentDate_of_all_none (idx : List Int) (c : List (Option ℚ))
    (hall : ∀ x ∈ c, x = none) (hlen : c.length = idx.length) :
    mostRecentDate idx c = idx.getLast? := by
  unfold mostRecentDate idxmaxBool
  have hmask : ∀ b ∈ (c.map (fun x => x.isSome)).reverse, b = false := by
    intro b hb
    obtain ⟨x, hx, rfl⟩ := List.mem_map.mp (List.mem_reverse.mp hb)
    rw [hall x hx]; rfl
  have hfind :
      (idx.reverse.zip ((c.map (fun x => x.isSome)).reverse)).find?
        (fun p => p.2) = none := by
    rw [List.find?_eq_none]
    intro p hp
    have h2 := (List.of_mem_zip hp).2
    simp [hmask p.2 h2]
  rw [hfind, List.getLast?_eq_head?_reverse]
  cases hidx : idx.reverse with
  | nil => rfl
  | cons a as =>
    cases hmsk : (c.map (fun x => x.isSome)).reverse with
    | nil =>
      exfalso
      have h1 : idx.reverse.length = as.length + 1 := by rw [hidx]; rfl
      have h2 : (c.map (fun x => x.isSome)).reverse.length = 0 := by
        rw [hmsk]; rfl
      simp only [List.length_reverse, List.length_map] at h1 h2
      omega
    | cons b bs =>
      rfl

theorem nodup_fst_eq {A : Type} {l : List (String × A)}
    (h : (l.map Prod.fst).Nodup) {n : String} {a b : A}
    (h1 : (n, a) ∈ l) (h2 : (n, b) ∈ l) : a = b := by
  induction l with
  | nil => cases h1
  | cons p rest ih =>
    rw [List.map_cons, List.nodup_cons] at h
    rcases List.mem_cons.mp h1 with e1 | e1 <;>
      rcases List.mem_cons.mp h2 with e2 | e2
    · rw [← e1] at e2; exact (Prod.mk.injEq _ _ _ _ ▸ e2).2.symm
    · exfalso
      exact h.1 (List.mem_map.mpr ⟨(n, b), e2, by rw [← e1]⟩)
    · exfalso
      exact h.1 (List.mem_map.mpr ⟨(n, a), e1, by rw [← e2]⟩)
    · exact ih h.2 e1 e2

theorem colNames_ilocFrom (k : Nat) (df : DF) :
    colNames (ilocFrom k df) = colNames df := by
  simp [colNames, ilocFrom, List.map_map, Function.comp]

theorem capTake_zero (cap : Option Nat) (counts : List (String × Nat))
    (l : List (Template × Score)) : capTake cap counts 0 l = [] := by
  cases l <;> simp [capTake]

theorem scoreRel_refl (p : Template × Score) : scoreRel p p :=
  Or.inr ⟨rfl, le_refl _⟩

theorem selectBest_one (scored : List (Template × Score)) (h : scored ≠ []) :
    ∃ p ∈ scored, selectBest scored 1 none = [p.1] ∧
      ∀ q ∈ scored, scoreRel p q := by
  have hperm := List.perm_insertionSort scoreRel scored
  have hsorted := List.sorted_insertionSort scoreRel scored
  cases hs : List.insertionSort scoreRel scored with
  | nil =>
    exact absurd ((hs ▸ hperm).symm.eq_nil) h
  | cons p tail =>
    refine ⟨p, hperm.mem_iff.mp (hs ▸ List.mem_cons_self p tail), ?_, ?_⟩
    · unfold selectBest
      rw [hs, capTake]
      simp [capAllows, capTake_zero]
    · intro q hq
      have hq2 : q ∈ p :: tail := hs ▸ hperm.mem_iff.mpr hq
      rcases List.mem_cons.mp hq2 with rfl | hq3
      · exact scoreRel_refl q
      · exact List.rel_of_sorted_cons (hs ▸ hsorted) q hq3

/-! ## Claims -/

/-- C1: for every raw member-model output, the forecast produced by the
Forecast Executor satisfies `lower ≤ point ≤ upper` elementwise for every
cell of the three output tables, even when the member model returns
inverted or non-finite bounds — they are clipped/repaired before
returning. -/
theorem C1_executor_bounds (member : String → Nat → RawCell)
    (names : List String) (futIdx : List Int) :
    ∀ col ∈ (predict member names futIdx).cols, ∀ cell ∈ col.2,
      cell.lower ≤ cell.point ∧ cell.point ≤ cell.upper := by
  intro col hcol cell hcell
  simp only [predict, List.mem_map] at hcol
  obtain ⟨n, _, rfl⟩ := hcol
  simp only [List.mem_map] at hcell
  obtain ⟨i, _, rfl⟩ := hcell
  exact repairCell_le _

theorem C1_executor_bounds_witness :
    (("a", [repairCell sampleRaw]) ∈
        (predict (fun _ _ => sampleRaw) ["a"] [0]).cols) ∧
      (repairCell sampleRaw ∈ [repairCell sampleRaw]) ∧
      ((repairCell sampleRaw).lower ≤ (repairCell sampleRaw).point ∧
        (repairCell sampleRaw).point ≤ (repairCell sampleRaw).upper) :=
  ⟨by decide, by decide,
    C1_executor_bounds (fun _ _ => sampleRaw) ["a"] [0]
      ("a", [repairCell sampleRaw]) (by decide)
      (repairCell sampleRaw) (by decide)⟩

/-- C2: exporting a selection to the template archive and importing the
same file back with method `only` yields a population identical to the
exported selection (export followed by only-import is a round-trip); the
importing also switches the run to fixed-template mode. -/
theorem C2_export_import_roundtrip (fs : FS) (path : String)
    (sel : List Template) (st : ModelState) :
    importTemplate (exportTemplate fs path sel) path .only st =
      .ok { st with population := sel, evolveDisabled := true } := by
  unfold importTemplate exportTemplate
  rw [fsGet_fsPut]
  simp only [map_fromRow_toRow]

/-- C3: under a fixed random seed (a deterministic evaluation and mutation
scheme), for every `k ≥ 1`, raising `max_generations` from 0 to `k` never
increases the CompositeScore of the best template in the scored history:
the search is monotone non-regressive in the generation count. -/
theorem C3_generations_non_regressive (cfg : SearchConfig)
    (pop : List Template) (k : Nat) (_hk : 1 ≤ k) :
    bestScore (runSearch cfg pop k) ≤ bestScore (runSearch cfg pop 0) := by
  obtain ⟨tail, ht⟩ := evolveAux_append cfg k (scoreAll cfg.eval pop) 1
  rw [runSearch, ht]
  exact bestScore_append_le _ _

theorem C3_generations_non_regressive_witness :
    1 ≤ 1 ∧
      bestScore (runSearch sampleCfg [sampleTemplate 1] 1) ≤
        bestScore (runSearch sampleCfg [sampleTemplate 1] 0) :=
  ⟨le_refl 1,
    C3_generations_non_regressive sampleCfg [sampleTemplate 1] 1 (le_refl 1)⟩

/-- C6: when the archive path given to Import does not exist in the store,
the run does not raise an error: the import returns successfully and the
population is the full cold-start seeding (the fully random initial
template set), for any merge method. -/
theorem C6_missing_archive_cold_start (fs : FS) (path : String)
    (method : ImportMethod) (st : ModelState)
    (h : fsGet fs path = none) :
    importTemplate fs path method st =
      .ok { st with population := st.seedPopulation } := by
  unfold importTemplate
  rw [h]

/-- C4: when `max_generations` is 0 and an archive is imported with method
`only`, no generational mutation happens: the population is replaced by the
archived templates, generational mutation is disabled, the Validation
Engine evaluates exactly the archived templates (the seeded population is
scored once), and the Ensembler selects among them only. -/
theorem C4_only_import_zero_generations (fs : FS) (path : String)
    (rs : List ArchiveRow) (st : ModelState) (cfg : SearchConfig)
    (n : Nat) (cap : Option Nat)
    (h : fsGet fs path = some (.rows rs)) :
    ∃ st2, importTemplate fs path .only st = .ok st2 ∧
      st2.population = rs.map fromRow ∧ st2.evolveDisabled = true ∧
      (runSearch cfg st2.population 0).map Prod.fst = rs.map fromRow ∧
      ∀ t ∈ selectBest (validOf (runSearch cfg st2.population 0)) n cap,
        t ∈ rs.map fromRow := by
  have himp : importTemplate fs path .only st =
      .ok { st with population := rs.map fromRow, evolveDisabled := true } := by
    unfold importTemplate
    rw [h]
  refine ⟨_, himp, rfl, rfl, ?_, ?_⟩
  · show (scoreAll cfg.eval (rs.map fromRow)).map Prod.fst = rs.map fromRow
    simp [scoreAll, List.map_map, Function.comp]
  · intro t ht
    obtain ⟨p, hp, hpt⟩ := selectBest_subset _ _ _ _ ht
    have hp2 : p ∈ scoreAll cfg.eval (rs.map fromRow) :=
      List.mem_of_mem_filter hp
    exact hpt ▸ (mem_scoreAll _ _ _ hp2).2

/-- A 5-row archive of sample templates, at the script's template path. -/
def archRows : List ArchiveRow :=
  (List.range 5).map (fun i => toRow (sampleTemplate i) 0)

def archFS : FS := [("autots_forecast_template_example.csv", .rows archRows)]

/-- A pre-import model state seeded with 10 random templates. -/
def bigState : ModelState :=
  ⟨(List.range 10).map sampleTemplate, (List.range 10).map sampleTemplate,
   false⟩

theorem C4_only_import_zero_generations_witness :
    (fsGet archFS "autots_forecast_template_example.csv" =
        some (.rows archRows)) ∧
      ∃ st2, importTemplate archFS "autots_forecast_template_example.csv"
            .only bigState = .ok st2 ∧
        st2.population = archRows.map fromRow ∧ st2.evolveDisabled = true ∧
        (runSearch sampleCfg st2.population 0).map Prod.fst =
          archRows.map fromRow ∧
        ∀ t ∈ selectBest (validOf (runSearch sampleCfg st2.population 0))
            3 (some 5), t ∈ archRows.map fromRow :=
  ⟨by decide,
    C4_only_import_zero_generations archFS
      "autots_forecast_template_example.csv" archRows bigState sampleCfg
      3 (some 5) (by decide)⟩

/-- C7: if no template validates (every candidate fails to fit, recorded as
infinite cost), the run surfaces `EnsembleInfeasibleError` to the caller
and produces no Forecast — it never returns a silently empty or fabricated
forecast. -/
theorem C7_all_fail_infeasible (cfg : SearchConfig) (pop : List Template)
    (gens n : Nat) (cap : Option Nat)
    (member : List Template → String → Nat → RawCell)
    (names : List String) (futIdx : List Int)
    (h : ∀ t, cfg.eval t = ⊤) :
    runForecast cfg pop gens n cap member names futIdx =
      .error .ensembleInfeasible := by
  unfold runForecast
  have hv : validOf (runSearch cfg pop gens) = [] := by
    rw [validOf, List.filter_eq_nil_iff]
    intro p hp
    simp [mem_runSearch_score cfg pop gens p hp, h p.1]
  rw [hv]
  rfl

theorem C7_all_fail_infeasible_witness :
    (∀ t, failCfg.eval t = ⊤) ∧
      runForecast failCfg [sampleTemplate 1] 1 1 none sampleMember
          ["a"] [0] = .error .ensembleInfeasible :=
  ⟨fun _ => rfl,
    C7_all_fail_infeasible failCfg [sampleTemplate 1] 1 1 none sampleMember
      ["a"] [0] (fun _ => rfl)⟩

/-- C8: when the interrupt signal is set mid-generation with `m` candidates
scored, the abandoned in-flight evaluations are treated as failed, so every
validated result comes from the completed prefix — the Population Manager
selects survivors from only the results completed so far — and, provided at
least one completed candidate validated, the run still completes with a
valid Forecast: an interrupt is not an error outcome. -/
theorem C8_interrupt_completes (cfg : SearchConfig) (cands : List Template)
    (m n : Nat) (cap : Option Nat)
    (member : List Template → String → Nat → RawCell)
    (names : List String) (futIdx : List Int)
    (h : ∃ t ∈ cands.take m, cfg.eval t ≠ ⊤) :
    (∀ p ∈ validOf (scoreGenInterrupted cfg.eval cands m),
        p.1 ∈ cands.take m) ∧
      ∃ f, runInterrupted cfg cands m n cap member names futIdx = .ok f := by
  constructor
  · intro p hp
    have hmem := List.mem_of_mem_filter hp
    have hne : p.2 ≠ ⊤ := by simpa using List.of_mem_filter hp
    rcases List.mem_append.mp hmem with h1 | h1
    · obtain ⟨t, ht, rfl⟩ := List.mem_map.mp h1
      exact ht
    · exfalso
      obtain ⟨t, _, rfl⟩ := List.mem_map.mp h1
      exact hne rfl
  · obtain ⟨t, ht, hne⟩ := h
    have hmem : (t, cfg.eval t) ∈
        validOf (scoreGenInterrupted cfg.eval cands m) := by
      rw [validOf, List.mem_filter]
      refine ⟨List.mem_append_left _ (List.mem_map.mpr ⟨t, ht, rfl⟩), ?_⟩
      simpa using hne
    unfold runInterrupted
    cases hv : validOf (scoreGenInterrupted cfg.eval cands m) with
    | nil => rw [hv] at hmem; cases hmem
    | cons q qs => exact ⟨_, rfl⟩

/-- The ten candidates of the interrupt scenario. -/
def tenCands : List Template := (List.range 10).map sampleTemplate

theorem C8_interrupt_completes_witness :
    (∃ t ∈ tenCands.take 6, sampleCfg.eval t ≠ ⊤) ∧
      ((∀ p ∈ validOf (scoreGenInterrupted sampleCfg.eval tenCands 6),
          p.1 ∈ tenCands.take 6) ∧
        ∃ f, runInterrupted sampleCfg tenCands 6 3 (some 5) sampleMember
            ["a"] [0] = .ok f) :=
  ⟨by decide,
    C8_interrupt_completes sampleCfg tenCands 6 3 (some 5) sampleMember
      ["a"] [0] (by decide)⟩

/-- C9: the timestamped archive operation side-exports exactly the top-1
template (the single best-ranked scored template) under a filename suffixed
with the export timestamp, and a failure of this side-export is non-fatal
to the main template export: the main export is written first and is
present in the store whether or not the side-export happens.  The last
conjunct checks the script's concrete filename arithmetic. -/
theorem C9_timestamped_archive (fs : FS) (tmplFile ts : String)
    (best : List (Template × Score)) (n : Nat) (cap : Option Nat)
    (h : arcFileOf tmplFile ts ≠ tmplFile) :
    (∀ sideOk,
        fsGet (processResults fs tmplFile ts best n cap sideOk) tmplFile =
          some (.rows ((selectBest best n cap).map (fun t => toRow t 0)))) ∧
      (fsGet (processResults fs tmplFile ts best n cap true)
          (arcFileOf tmplFile ts) =
        some (.rows ((selectBest best 1 none).map (fun t => toRow t 0)))) ∧
      (best ≠ [] → ∃ p ∈ best, selectBest best 1 none = [p.1] ∧
        ∀ q ∈ best, scoreRel p q) ∧
      (∀ ts2, arcFileOf (templateFilename "example") ts2 =
        "autots_forecast_template_example_" ++ ts2 ++ ".csv") := by
  refine ⟨?_, ?_, fun hb => selectBest_one best hb, ?_⟩
  · intro sideOk
    cases sideOk with
    | false =>
      show fsGet (exportTemplate fs tmplFile (selectBest best n cap))
        tmplFile = _
      exact fsGet_fsPut _ _ _
    | true =>
      show fsGet (exportTemplate (exportTemplate fs tmplFile _)
        (arcFileOf tmplFile ts) _) tmplFile = _
      rw [exportTemplate, exportTemplate, fsGet_fsPut_ne _ _ _ _ h.symm]
      exact fsGet_fsPut _ _ _
  · show fsGet (exportTemplate _ (arcFileOf tmplFile ts) _)
      (arcFileOf tmplFile ts) = _
    exact fsGet_fsPut _ _ _
  · intro ts2
    have h1 : String.mk
        (takeUntilSub ".csv".data (templateFilename "example").data) =
        "autots_forecast_template_example" := by decide
    have h2 : ("autots_forecast_template_example" : String) ++ "_" =
        "autots_forecast_template_example_" := by decide
    unfold arcFileOf
    rw [h1, h2]

/-- A concrete nonempty scored population for the archive scenario. -/
def sampleBest : List (Template × Score) :=
  [(sampleTemplate 2, ((2 : ℚ) : WithTop ℚ)),
   (sampleTemplate 1, ((1 : ℚ) : WithTop ℚ))]

theorem C9_timestamped_archive_witness :
    (arcFileOf (templateFilename "example") "202610061200" ≠
        templateFilename "example") ∧
      ((∀ sideOk,
          fsGet (processResults [] (templateFilename "example")
              "202610061200" sampleBest 30 (some 5) sideOk)
            (templateFilename "example") =
            some (.rows ((selectBest sampleBest 30 (some 5)).map
              (fun t => toRow t 0)))) ∧
        (fsGet (processResults [] (templateFilename "example") "202610061200"
            sampleBest 30 (some 5) true)
            (arcFileOf (templateFilename "example") "202610061200") =
          some (.rows ((selectBest sampleBest 1 none).map
            (fun t => toRow t 0)))) ∧
        (sampleBest ≠ [] → ∃ p ∈ sampleBest,
          selectBest sampleBest 1 none = [p.1] ∧
            ∀ q ∈ sampleBest, scoreRel p q) ∧
        (∀ ts2, arcFileOf (templateFilename "example") ts2 =
          "autots_forecast_template_example_" ++ ts2 ++ ".csv")) :=
  ⟨by decide,
    C9_timestamped_archive [] (templateFilename "example") "202610061200"
      sampleBest 30 (some 5) (by decide)⟩

/-- C5: a series whose most recent observed (non-missing) value is strictly
older than the minimum-recency cutoff is dropped before modeling and never
appears in any output table of the forecast; and the forecast has exactly
`fl` (the horizon) rows. -/
theorem C5_recency_dropped_never_output (df : DF) (cutoff : Int) (fl : Nat)
    (start : Int) (member : String → Nat → RawCell) (n : String)
    (c : List (Option ℚ)) (d : Int)
    (hmem : (n, c) ∈ df.cols)
    (hdate : mostRecentDate df.index c = some d)
    (hold : d < cutoff) :
    (∀ col ∈ (modelingOutput df cutoff fl start member).cols, col.1 ≠ n) ∧
      (modelingOutput df cutoff fl start member).index.length = fl := by
  constructor
  · intro col hcol
    have hdrop : n ∈ dropColsFor cutoff df := by
      rw [dropColsFor, List.mem_filterMap]
      exact ⟨(n, c), hmem, by rw [hdate]; simp [hold]⟩
    simp only [modelingOutput, predict, List.mem_map] at hcol
    obtain ⟨m, hm, rfl⟩ := hcol
    rw [colNames_ilocFrom] at hm
    simp only [colNames, recencyFilter, dropColumns, List.mem_map] at hm
    obtain ⟨nc, hnc, rfl⟩ := hm
    have h2 := List.of_mem_filter hnc
    simp only [Bool.not_eq_true'] at h2
    intro he
    rw [he] at h2
    have : n ∈ dropColsFor cutoff df → False := by
      intro hn
      have := List.elem_eq_true_of_mem hn
      rw [List.contains] at h2
      rw [this] at h2
      cases h2
    exact this hdrop
  · show (futureIndex start fl).length = fl
    rw [futureIndex, List.length_map, List.length_range]

set_option maxRecDepth 40000 in
theorem C5_recency_dropped_never_output_witness :
    (("endsOld", seriesOld) ∈ scenarioDF.cols) ∧
      (mostRecentDate scenarioDF.index seriesOld = some 799) ∧
      ((799 : Int) < 819) ∧
      ((∀ col ∈ (modelingOutput scenarioDF 819 28 999
          (fun _ _ => sampleRaw)).cols, col.1 ≠ "endsOld") ∧
        (modelingOutput scenarioDF 819 28 999
          (fun _ _ => sampleRaw)).index.length = 28) ∧
      ((modelingOutput scenarioDF 819 28 999
          (fun _ _ => sampleRaw)).cols.map (fun x => x.1) = ["fresh"]) :=
  ⟨List.mem_cons_self ("endsOld", seriesOld) [("fresh", seriesFresh)],
    by decide, by decide,
    C5_recency_dropped_never_output scenarioDF 819 28 999
      (fun _ _ => sampleRaw) "endsOld" seriesOld 799
      (List.mem_cons_self ("endsOld", seriesOld) [("fresh", seriesFresh)])
      (by decide) (by decide),
    by decide⟩

/-- C10: a series whose values are all missing is NOT dropped by the
minimum-recency filter: the last-observed-timestamp computation (idxmax
over the reversed not-NA mask) returns the table's most recent timestamp
when no value is present, which — as long as the table itself extends to
the cutoff date or past it, as the script's live-data table does — is not
earlier than the cutoff, so the all-missing column survives the filter and
is passed to modeling. -/
theorem C10_all_missing_survives (df : DF) (cutoff lastD : Int) (n : String)
    (c : List (Option ℚ))
    (hmem : (n, c) ∈ df.cols)
    (hall : ∀ x ∈ c, x = none)
    (hlen : c.length = df.index.length)
    (hnodup : (colNames df).Nodup)
    (hlast : df.index.getLast? = some lastD)
    (hcut : cutoff ≤ lastD) :
    mostRecentDate df.index c = some lastD ∧
      (n, c) ∈ (recencyFilter cutoff df).cols := by
  have hmrd : mostRecentDate df.index c = some lastD := by
    rw [mostRecentDate_of_all_none df.index c hall hlen, hlast]
  refine ⟨hmrd, ?_⟩
  have hnot : n ∉ dropColsFor cutoff df := by
    intro hn
    rw [dropColsFor, List.mem_filterMap] at hn
    obtain ⟨⟨m, cc⟩, hnc, hf⟩ := hn
    rcases hmr : mostRecentDate df.index cc with _ | d2
    · rw [hmr] at hf
      have hf2 : (none : Option String) = some n := hf
      cases hf2
    · rw [hmr] at hf
      have hf2 : (if d2 < cutoff then some m else none) = some n := hf
      by_cases hd : d2 < cutoff
      · rw [if_pos hd] at hf2
        have h1 : m = n := Option.some.inj hf2
        subst h1
        have h2 : cc = c := nodup_fst_eq hnodup hnc hmem
        subst h2
        rw [hmrd] at hmr
        have h3 : lastD = d2 := Option.some.inj hmr
        subst h3
        exact absurd hd (not_lt.mpr hcut)
      · rw [if_neg hd] at hf2
        cases hf2
  rw [recencyFilter, dropColumns]
  rw [List.mem_filter]
  refine ⟨hmem, ?_⟩
  simp only [Bool.not_eq_true']
  rw [List.contains]
  rcases he : List.elem n (dropColsFor cutoff df) with _ | _
  · rfl
  · exact absurd (List.mem_of_elem_eq_true he) hnot

theorem C10_all_missing_survives_witness :
    (("allNA", [none, none, none]) ∈
        (⟨[0, 1, 2], [("allNA", [none, none, none]),
          ("ok", [some 1, some 1, some 1])]⟩ : DF).cols) ∧
      (∀ x ∈ ([none, none, none] : List (Option ℚ)), x = none) ∧
      (([none, none, none] : List (Option ℚ)).length =
        (⟨[0, 1, 2], [("allNA", [none, none, none]),
          ("ok", [some 1, some 1, some 1])]⟩ : DF).index.length) ∧
      ((colNames ⟨[0, 1, 2], [("allNA", [none, none, none]),
          ("ok", [some 1, some 1, some 1])]⟩).Nodup) ∧
      ((⟨[0, 1, 2], [("allNA", [none, none, none]),
          ("ok", [some 1, some 1, some 1])]⟩ : DF).index.getLast? =
        some 2) ∧
      ((1 : Int) ≤ 2) ∧
      (mostRecentDate (⟨[0, 1, 2], [("allNA", [none, none, none]),
          ("ok", [some 1, some 1, some 1])]⟩ : DF).index
          [none, none, none] = some 2 ∧
        ("allNA", ([none, none, none] : List (Option ℚ))) ∈
          (recencyFilter 1 ⟨[0, 1, 2], [("allNA", [none, none, none]),
            ("ok", [some 1, some 1, some 1])]⟩).cols) :=
  ⟨by decide, by decide, by decide, by decide, by decide, by decide,
    C10_all_missing_survives
      ⟨[0, 1, 2], [("allNA", [none, none, none]),
        ("ok", [some 1, some 1, some 1])]⟩ 1 2 "allNA"
      [none, none, none] (by decide) (by decide) (by decide) (by decide)
      (by decide) (by decide)⟩

theorem C6_missing_archive_cold_start_witness :
    (fsGet [] "autots_forecast_template_example.csv" = none) ∧
      importTemplate [] "autots_forecast_template_example.csv" .only
          ⟨[], [sampleTemplate 7], false⟩ =
        .ok ⟨[sampleTemplate 7], [sampleTemplate 7], false⟩ :=
  ⟨rfl,
    C6_missing_archive_cold_start [] "autots_forecast_template_example.csv"
      .only ⟨[], [sampleTemplate 7], false⟩ rfl⟩

end AutoTSSpec
